import Mathlib

/-!
Shallow embedding of `src/editor/api/index.js` of newspack-newsletters:
an `apiFetch` middleware that intercepts post-update requests, saves a
whitelisted subset of post meta, asks the server to convert the post
content to MJML, backfills missing image widths, compiles the MJML to
email HTML, saves that HTML as post meta, and only then forwards the
original request.

Modelling conventions:
* JS objects with a fixed set of fields become structures; absent fields
  are `Option`.
* Meta objects and DOM attribute maps are association lists
  `List (String × String)` (JS object / DOM attribute maps have unique
  keys; `lookup` is property access).
* JS truthiness is modelled exactly where the code relies on it:
  a string is falsy iff it is `""`, a number iff it is `0`, `undefined`
  and `null` are falsy (`Option.none`), objects are always truthy.
* Asynchronous external calls (network, image loading) are oracles
  `… → Option …`; `none` models a rejected promise.  A rejected await
  aborts the whole middleware (`Outcome.failed`), mirroring an
  unhandled rejection.
* The browser's HTML parser / serializer (`template.innerHTML`) and the
  `mjml-browser` compiler are opaque functions carried in the
  environment; the DOM fragment is the list of its elements in document
  order.
* The middleware's externally visible behaviour is an event trace
  (store read, each `apiFetch` call with its body, each image load, the
  MJML compilation) together with an outcome: `forwarded opts` means
  `next` was called with `opts` after the whole trace, `failed` means
  the returned promise rejected and `next` was never called.
-/

/-- JS truthiness of a possibly-absent string: `undefined`, `null` and
`""` are falsy. -/
def jsFalsyStr : Option String → Bool
  | none => true
  | some s => s == ""

/-- JS truthiness of a possibly-absent number: `undefined`, `null` and
`0` are falsy. -/
def jsFalsyNum : Option Nat → Bool
  | none => true
  | some n => n == 0

/-- `path.indexOf(pat) !== -1`: substring containment. -/
def strContains (s pat : String) : Bool :=
  decide (pat.data <:+: s.data)

/-- lodash `pick(obj, keys)`: the sub-object of `obj` at the given keys,
in key-list order, skipping keys that are not present. -/
def lodashPick (m : List (String × String)) (keys : List String) :
    List (String × String) :=
  keys.filterMap fun k => (List.lookup k m).map fun v => (k, v)

/-- lodash `omit(obj, keys)`: the sub-object of `obj` at all keys not in
`keys`, preserving order. -/
def lodashOmit (m : List (String × String)) (keys : List String) :
    List (String × String) :=
  m.filter fun kv => !(keys.contains kv.1)

/-- Replace the binding of `k` in place (DOM attribute maps keep the
attribute's position), appending it if absent. -/
def setKey : List (String × String) → String → String → List (String × String)
  | [], k, v => [(k, v)]
  | (k', v') :: rest, k, v =>
      if k' = k then (k, v) :: rest else (k', v') :: setKey rest k v

/-- A DOM element of the parsed fragment: tag name and attribute map. -/
structure Element where
  tag : String
  attrs : List (String × String)
deriving DecidableEq, Repr

/-- `element.getAttribute(k)`: `none` models `null`. -/
def getAttr (e : Element) (k : String) : Option String :=
  List.lookup k e.attrs

/-- `element.setAttribute(k, v)`. -/
def setAttr (e : Element) (k v : String) : Element :=
  { e with attrs := setKey e.attrs k v }

/-- The resolution of `getImageSize`: the loaded image's dimensions. -/
structure ImgSize where
  width : Nat
  height : Nat
deriving DecidableEq, Repr

/-- The loop body of `fixImagesWidth` over the elements of the parsed
fragment in document order.  For each `mj-image` whose `width`
attribute is falsy (absent or `""`), the image at its `src` is loaded
(`getAttribute('src')` returning `null` is coerced by `img.src = null`
to the URL string `"null"`); a failed load rejects the whole function.
Returns the image URLs loaded (in order) and, unless a load failed, the
updated element list. -/
def fixImagesRun (load : String → Option ImgSize) :
    List Element → List String × Option (List Element)
  | [] => ([], some [])
  | e :: rest =>
    if e.tag == "mj-image" && jsFalsyStr (getAttr e "width") then
      let src := (getAttr e "src").getD "null"
      match load src with
      | none => ([src], none)
      | some sz =>
          let res := fixImagesRun load rest
          (src :: res.1,
           res.2.map fun l => setAttr e "width" (toString sz.width) :: l)
    else
      let res := fixImagesRun load rest
      (res.1, res.2.map fun l => e :: l)

/-- `fixImagesWidth` at the DOM level: the updated fragment, or `none`
if some image load rejected. -/
def fixImagesWidth (load : String → Option ImgSize)
    (elems : List Element) : Option (List Element) :=
  (fixImagesRun load elems).2

/-- The `data` field of the intercepted request's options. -/
structure RequestData where
  content : Option String
  id : Option Nat
  title : Option String
  meta : Option (List (String × String))
deriving DecidableEq, Repr

instance : Inhabited RequestData := ⟨⟨none, none, none, none⟩⟩

/-- The options object handed to the middleware. -/
structure Options where
  method : Option String
  path : String
  data : Option RequestData
deriving DecidableEq, Repr

/-- The CMS globals the middleware reads: the page-level configuration
object `window.newspack_email_editor_data`, the `core/editor` data
store selectors, and the opaque browser/library functions it calls. -/
structure Env where
  mjml_handling_post_types : List String
  email_html_meta : String
  currentPostType : String
  editedPostMeta : List (String × String)
  parseHTML : String → List Element
  serialize : List Element → String
  mjmlCompile : String → String

/-- `is_public` is spelled as in the source (including the `diable_ads`
typo). -/
def POST_META_WHITELIST : List String :=
  [ "is_public", "preview_text", "diable_ads", "font_body", "font_header",
    "background_color", "custom_css", "newsletter_sent" ]

/-- The body of an `apiFetch` call issued by the middleware. -/
inductive ReqBody where
  | metaBody (meta : List (String × String))
  | mjmlBody (post_id : Nat) (title : Option String) (content : String)
deriving DecidableEq, Repr

/-- An `apiFetch` call issued by the middleware. -/
structure ApiRequest where
  method : String
  path : String
  body : ReqBody
deriving DecidableEq, Repr

/-- The externally visible events of one interception, in order. -/
inductive Event where
  | readMeta
  | api (req : ApiRequest)
  | imgLoad (src : String)
  | compile (mjml : String)
deriving DecidableEq, Repr

/-- `forwarded opts`: `next(opts)` was called (after every event of the
trace); `failed`: the middleware's promise rejected and `next` was
never called. -/
inductive Outcome where
  | forwarded (options : Options)
  | failed
deriving DecidableEq, Repr

/-- Result of one run of the middleware. -/
structure MWResult where
  trace : List Event
  outcome : Outcome
deriving DecidableEq, Repr

/-- The `apiFetch` call of an event, if any. -/
def Event.asApi : Event → Option ApiRequest
  | .api req => some req
  | _ => none

/-- The `apiFetch` calls of a run, in order. -/
def MWResult.apiCalls (r : MWResult) : List ApiRequest :=
  r.trace.filterMap Event.asApi

/-- `/wp/v2/${postType}/${data.id}` with `postType` from the editor
store and `id` from the intercepted payload. -/
def savePath (env : Env) (o : Options) : String :=
  "/wp/v2/" ++ env.currentPostType ++ "/" ++
    toString ((o.data.getD default).id.getD 0)

/-- The first call: save the whitelisted subset of the editor store's
edited post meta. -/
def metaSaveReq (env : Env) (o : Options) : ApiRequest :=
  { method := "POST"
  , path := savePath env o
  , body := .metaBody (lodashPick env.editedPostMeta POST_META_WHITELIST) }

/-- The second call: server-side conversion of the post content to
MJML. -/
def convertReq (o : Options) : ApiRequest :=
  { method := "POST"
  , path := "/newspack-newsletters/v1/post-mjml"
  , body := .mjmlBody ((o.data.getD default).id.getD 0)
      (o.data.getD default).title
      (((o.data.getD default).content).getD "") }

/-- The third call: save the compiled email HTML under the configured
meta key. -/
def htmlSaveReq (env : Env) (o : Options) (html : String) : ApiRequest :=
  { method := "POST"
  , path := savePath env o
  , body := .metaBody [(env.email_html_meta, html)] }

/-- The in-place mutation `options.data.meta = omit(options.data.meta,
[...POST_META_WHITELIST, emailHTMLMetaName])`, performed only when
`options.data.meta` is truthy. -/
def strippedOptions (env : Env) (o : Options) : Options :=
  let data := o.data.getD default
  match data.meta with
  | none => o
  | some m =>
      { o with data := some { data with
          meta := some (lodashOmit m
            (POST_META_WHITELIST ++ [env.email_html_meta])) } }

/-- The body of the middleware once every filter has passed: strip the
payload meta, read the edited meta from the store, save its whitelisted
part, convert the content to MJML, backfill image widths, compile to
email HTML, save it as meta, and forward the stripped options.  Every
step is awaited; a rejection aborts with the trace so far. -/
def mainFlow (env : Env) (net : ApiRequest → Option String)
    (load : String → Option ImgSize) (o : Options) : MWResult :=
  let o' := strippedOptions env o
  let r1 := metaSaveReq env o
  match net r1 with
  | none => ⟨[.readMeta, .api r1], .failed⟩
  | some _ =>
    let r2 := convertReq o
    match net r2 with
    | none => ⟨[.readMeta, .api r1, .api r2], .failed⟩
    | some mjmlStr =>
      let run := fixImagesRun load (env.parseHTML mjmlStr)
      match run.2 with
      | none =>
          ⟨[.readMeta, .api r1, .api r2] ++ run.1.map .imgLoad, .failed⟩
      | some elems =>
        let fixedMjml := env.serialize elems
        let html := env.mjmlCompile fixedMjml
        let r3 := htmlSaveReq env o html
        match net r3 with
        | none =>
            ⟨[.readMeta, .api r1, .api r2] ++ run.1.map .imgLoad ++
              [.compile fixedMjml, .api r3], .failed⟩
        | some _ =>
            ⟨[.readMeta, .api r1, .api r2] ++ run.1.map .imgLoad ++
              [.compile fixedMjml, .api r3], .forwarded o'⟩

/-- The registered middleware (`apiFetch.use`): the four early-return
filters of the source in order, then `mainFlow`. -/
def middleware (env : Env) (net : ApiRequest → Option String)
    (load : String → Option ImgSize) (o : Options) : MWResult :=
  let data := o.data.getD default
  if !(o.method == some "POST" || o.method == some "PUT") then
    ⟨[], .forwarded o⟩
  else if jsFalsyStr data.content || jsFalsyNum data.id then
    ⟨[], .forwarded o⟩
  else if !(env.mjml_handling_post_types.any fun pt => strContains o.path pt) then
    ⟨[], .forwarded o⟩
  else if !(env.mjml_handling_post_types.contains env.currentPostType) then
    ⟨[], .forwarded o⟩
  else
    mainFlow env net load o

/-- All four filters pass. -/
def passesFilters (env : Env) (o : Options) : Bool :=
  let data := o.data.getD default
  (o.method == some "POST" || o.method == some "PUT") &&
  !(jsFalsyStr data.content) && !(jsFalsyNum data.id) &&
  (env.mjml_handling_post_types.any fun pt => strContains o.path pt) &&
  (env.mjml_handling_post_types.contains env.currentPostType)

/-- Replace the payload's meta object. -/
def setPayloadMeta (o : Options) (m : Option (List (String × String))) :
    Options :=
  { o with data := some { o.data.getD default with meta := m } }

/-! ## Structural lemmas -/

theorem middleware_skip (env : Env) (net : ApiRequest → Option String)
    (load : String → Option ImgSize) (o : Options)
    (h : passesFilters env o = false) :
    middleware env net load o = ⟨[], .forwarded o⟩ := by
  unfold passesFilters at h
  unfold middleware
  cases h1 : (o.method == some "POST" || o.method == some "PUT") <;>
  cases h2 : jsFalsyStr (o.data.getD default).content <;>
  cases h3 : jsFalsyNum (o.data.getD default).id <;>
  cases h4 : (env.mjml_handling_post_types.any fun pt => strContains o.path pt) <;>
  cases h5 : env.mjml_handling_post_types.contains env.currentPostType <;>
  simp_all

theorem middleware_pass (env : Env) (net : ApiRequest → Option String)
    (load : String → Option ImgSize) (o : Options)
    (h : passesFilters env o = true) :
    middleware env net load o = mainFlow env net load o := by
  unfold passesFilters at h
  unfold middleware
  simp only [Bool.and_eq_true, Bool.not_eq_true'] at h
  obtain ⟨⟨⟨⟨h1, h2⟩, h3⟩, h4⟩, h5⟩ := h
  simp [h1, h2, h3, h4, h5]
  intro hc
  exact absurd (by simpa using h5) hc

theorem mainFlow_shape (env : Env) (net : ApiRequest → Option String)
    (load : String → Option ImgSize) (o : Options) :
    (net (metaSaveReq env o) = none ∧
      mainFlow env net load o =
        ⟨[.readMeta, .api (metaSaveReq env o)], .failed⟩) ∨
    (∃ a, net (metaSaveReq env o) = some a ∧ net (convertReq o) = none ∧
      mainFlow env net load o =
        ⟨[.readMeta, .api (metaSaveReq env o), .api (convertReq o)], .failed⟩) ∨
    (∃ a s, net (metaSaveReq env o) = some a ∧ net (convertReq o) = some s ∧
      (fixImagesRun load (env.parseHTML s)).2 = none ∧
      mainFlow env net load o =
        ⟨[.readMeta, .api (metaSaveReq env o), .api (convertReq o)] ++
          (fixImagesRun load (env.parseHTML s)).1.map .imgLoad, .failed⟩) ∨
    (∃ a s elems, net (metaSaveReq env o) = some a ∧ net (convertReq o) = some s ∧
      (fixImagesRun load (env.parseHTML s)).2 = some elems ∧
      net (htmlSaveReq env o (env.mjmlCompile (env.serialize elems))) = none ∧
      mainFlow env net load o =
        ⟨[.readMeta, .api (metaSaveReq env o), .api (convertReq o)] ++
          (fixImagesRun load (env.parseHTML s)).1.map .imgLoad ++
          [.compile (env.serialize elems),
           .api (htmlSaveReq env o (env.mjmlCompile (env.serialize elems)))], .failed⟩) ∨
    (∃ a s elems b, net (metaSaveReq env o) = some a ∧ net (convertReq o) = some s ∧
      (fixImagesRun load (env.parseHTML s)).2 = some elems ∧
      net (htmlSaveReq env o (env.mjmlCompile (env.serialize elems))) = some b ∧
      mainFlow env net load o =
        ⟨[.readMeta, .api (metaSaveReq env o), .api (convertReq o)] ++
          (fixImagesRun load (env.parseHTML s)).1.map .imgLoad ++
          [.compile (env.serialize elems),
           .api (htmlSaveReq env o (env.mjmlCompile (env.serialize elems)))],
         .forwarded (strippedOptions env o)⟩) := by
  cases h1 : net (metaSaveReq env o) with
  | none => exact Or.inl ⟨rfl, by simp [mainFlow, h1]⟩
  | some a =>
    cases h2 : net (convertReq o) with
    | none => exact Or.inr (Or.inl ⟨a, rfl, rfl, by simp [mainFlow, h1, h2]⟩)
    | some s =>
      cases h3 : (fixImagesRun load (env.parseHTML s)).2 with
      | none =>
        exact Or.inr (Or.inr (Or.inl ⟨a, s, rfl, rfl, h3, by simp [mainFlow, h1, h2, h3]⟩))
      | some elems =>
        cases h4 : net (htmlSaveReq env o (env.mjmlCompile (env.serialize elems))) with
        | none =>
          exact Or.inr (Or.inr (Or.inr (Or.inl
            ⟨a, s, elems, rfl, rfl, h3, h4, by simp [mainFlow, h1, h2, h3, h4]⟩)))
        | some b =>
          exact Or.inr (Or.inr (Or.inr (Or.inr
            ⟨a, s, elems, b, rfl, rfl, h3, h4, by simp [mainFlow, h1, h2, h3, h4]⟩)))

theorem fixImagesRun_sound (load : String → Option ImgSize) :
    ∀ (elems : List Element) (loads : List String) (out : List Element),
      fixImagesRun load elems = (loads, some out) →
      out.length = elems.length ∧
      ∀ (i : Nat) (hi : i < elems.length) (ho : i < out.length),
        if (elems.get ⟨i, hi⟩).tag = "mj-image" ∧
            jsFalsyStr (getAttr (elems.get ⟨i, hi⟩) "width") = true then
          ∃ sz, load ((getAttr (elems.get ⟨i, hi⟩) "src").getD "null") = some sz ∧
            out.get ⟨i, ho⟩ = setAttr (elems.get ⟨i, hi⟩) "width" (toString sz.width)
        else out.get ⟨i, ho⟩ = elems.get ⟨i, hi⟩ := by
  intro elems
  induction elems with
  | nil =>
    intro loads out h
    simp only [fixImagesRun, Prod.mk.injEq, Option.some.injEq] at h
    obtain ⟨-, h2⟩ := h
    subst h2
    exact ⟨rfl, fun i hi ho => absurd hi (by simp)⟩
  | cons e rest ih =>
    intro loads out h
    simp only [fixImagesRun] at h
    by_cases hc : (e.tag == "mj-image" && jsFalsyStr (getAttr e "width")) = true
    · rw [if_pos hc] at h
      cases hl : load ((getAttr e "src").getD "null") with
      | none => rw [hl] at h; simp at h
      | some sz =>
        rw [hl] at h
        have hsnd := congrArg Prod.snd h
        simp only [Option.map_eq_some'] at hsnd
        obtain ⟨l, hl2, hout⟩ := hsnd
        have hrest : fixImagesRun load rest = ((fixImagesRun load rest).1, some l) := by
          rw [← hl2]
        obtain ⟨hlen, hidx⟩ := ih (fixImagesRun load rest).1 l hrest
        subst hout
        refine ⟨by simp [hlen], ?_⟩
        intro i hi ho
        match i with
        | 0 =>
          have hcond : e.tag = "mj-image" ∧ jsFalsyStr (getAttr e "width") = true := by
            simpa using hc
          have hg : (e :: rest).get ⟨0, hi⟩ = e := rfl
          rw [hg, if_pos hcond]
          exact ⟨sz, hl, rfl⟩
        | Nat.succ j =>
          exact hidx j (by simpa using hi) (by simpa using ho)
    · rw [if_neg hc] at h
      have hsnd := congrArg Prod.snd h
      simp only [Option.map_eq_some'] at hsnd
      obtain ⟨l, hl2, hout⟩ := hsnd
      have hrest : fixImagesRun load rest = ((fixImagesRun load rest).1, some l) := by
        rw [← hl2]
      obtain ⟨hlen, hidx⟩ := ih (fixImagesRun load rest).1 l hrest
      subst hout
      refine ⟨by simp [hlen], ?_⟩
      intro i hi ho
      match i with
      | 0 =>
        have hcond : ¬(e.tag = "mj-image" ∧ jsFalsyStr (getAttr e "width") = true) := by
          simpa using hc
        have hg : (e :: rest).get ⟨0, hi⟩ = e := rfl
        rw [hg, if_neg hcond]
        rfl
      | Nat.succ j =>
        exact hidx j (by simpa using hi) (by simpa using ho)

theorem lookup_setKey (attrs : List (String × String)) (k v : String) :
    List.lookup k (setKey attrs k v) = some v := by
  induction attrs with
  | nil => simp [setKey, List.lookup]
  | cons kv rest ih =>
    obtain ⟨k', v'⟩ := kv
    by_cases hk : k' = k
    · subst hk
      simp [setKey, List.lookup]
    · rw [setKey, if_neg hk, List.lookup]
      have : (k == k') = false := by
        simpa using fun he => hk he.symm
      rw [this]
      exact ih

theorem mem_lodashOmit (m : List (String × String)) (keys : List String)
    (kv : String × String) :
    kv ∈ lodashOmit m keys ↔ kv ∈ m ∧ kv.1 ∉ keys := by
  simp [lodashOmit, List.mem_filter]

theorem filterMap_asApi_imgLoads (loads : List String) :
    (loads.map Event.imgLoad).filterMap Event.asApi = [] := by
  induction loads with
  | nil => rfl
  | cons s t ih => simp [Event.asApi, ih]

theorem passesFilters_setPayloadMeta (env : Env) (o : Options)
    (m : Option (List (String × String))) :
    passesFilters env (setPayloadMeta o m) = passesFilters env o := rfl

theorem metaSaveReq_setPayloadMeta (env : Env) (o : Options)
    (m : Option (List (String × String))) :
    metaSaveReq env (setPayloadMeta o m) = metaSaveReq env o := rfl

theorem mw_firstCall (env : Env) (net : ApiRequest → Option String)
    (load : String → Option ImgSize) (o : Options)
    (hpass : passesFilters env o = true) :
    (middleware env net load o).apiCalls.head? = some (metaSaveReq env o) := by
  rw [middleware_pass env net load o hpass]
  rcases mainFlow_shape env net load o with
      ⟨-, heq⟩ | ⟨a, -, -, heq⟩ | ⟨a, s, -, -, -, heq⟩ |
      ⟨a, s, elems, -, -, -, -, heq⟩ | ⟨a, s, elems, b, -, -, -, -, heq⟩ <;>
    simp [heq, MWResult.apiCalls, Event.asApi]

/-! ## Concrete instances used by witnesses and counterexamples -/

/-- A concrete page configuration / editor state. -/
def cEnv : Env :=
  { mjml_handling_post_types := ["newspack_nl"]
  , email_html_meta := "newspack_email_html"
  , currentPostType := "newspack_nl"
  , editedPostMeta := [("is_public", "1"), ("font_body", "arial")]
  , parseHTML := fun _ => []
  , serialize := fun _ => ""
  , mjmlCompile := fun _ => "<html>" }

/-- A network oracle on which every call succeeds. -/
def cNet : ApiRequest → Option String := fun _ => some ""

/-- A network oracle that rejects the MJML-conversion call. -/
def fNet : ApiRequest → Option String := fun r =>
  if r.path = "/newspack-newsletters/v1/post-mjml" then none else some ""

/-- An image oracle (unused on `cEnv`, whose fragments are empty). -/
def cLoad : String → Option ImgSize := fun _ => none

/-- A post-update request carrying content, id and a meta object with a
whitelisted key and a non-whitelisted one. -/
def cOptions : Options :=
  { method := some "PUT"
  , path := "/wp/v2/newspack_nl/7"
  , data := some
      { content := some "<p>x</p>", id := some 7, title := some "T"
      , meta := some [("foo", "bar"), ("is_public", "0")] } }

/-- A request that fails the method filter. -/
def gOptions : Options :=
  { method := some "GET"
  , path := "/wp/v2/newspack_nl/7"
  , data := some
      { content := some "<p>x</p>", id := some 7, title := some "T"
      , meta := some [("foo", "bar")] } }

/-- An `mj-image` with an empty (but present) `width` attribute. -/
def exElem : Element := ⟨"mj-image", [("width", ""), ("src", "a.png")]⟩

/-- An `mj-image` with no `width` attribute. -/
def wElem : Element := ⟨"mj-image", [("src", "b.png")]⟩

/-- A successful image oracle for the two sample images. -/
def wLoad : String → Option ImgSize := fun s =>
  if s = "a.png" then some ⟨300, 200⟩
  else if s = "b.png" then some ⟨250, 100⟩ else none

/-! ## Claims -/

/-- C4: a request whose method is neither POST nor PUT, or whose data
lacks (truthy) content or id, or whose path contains no MJML-handled
post type, or whose current editor post type is not MJML-handled, is
forwarded to `next` unchanged with an empty trace: no network call, no
metadata save, no image load and no markup conversion happen. -/
theorem mw_filters_forward_unchanged (env : Env)
    (net : ApiRequest → Option String) (load : String → Option ImgSize)
    (o : Options)
    (h : ¬(o.method = some "POST" ∨ o.method = some "PUT") ∨
         jsFalsyStr (o.data.getD default).content = true ∨
         jsFalsyNum (o.data.getD default).id = true ∨
         (env.mjml_handling_post_types.any fun pt => strContains o.path pt) = false ∨
         env.mjml_handling_post_types.contains env.currentPostType = false) :
    middleware env net load o = ⟨[], .forwarded o⟩ := by
  apply middleware_skip
  unfold passesFilters
  cases h1 : (o.method == some "POST" || o.method == some "PUT") <;>
  cases h2 : jsFalsyStr (o.data.getD default).content <;>
  cases h3 : jsFalsyNum (o.data.getD default).id <;>
  cases h4 : (env.mjml_handling_post_types.any fun pt => strContains o.path pt) <;>
  cases h5 : env.mjml_handling_post_types.contains env.currentPostType <;>
  simp_all

/-- Witness for C4: a GET request is forwarded untouched. -/
theorem mw_filters_forward_unchanged_witness :
    middleware cEnv cNet cLoad gOptions = ⟨[], .forwarded gOptions⟩ :=
  mw_filters_forward_unchanged cEnv cNet cLoad gOptions (Or.inl (by decide))

/-- C5: a fully successful interception performs, in this strict order:
read the edited meta from the editor store, persist its whitelisted
part (`metaSaveReq`), request server-side conversion to MJML
(`convertReq`), load the images that need a width (in document order),
compile the patched MJML to email HTML, persist the HTML as post meta
(`htmlSaveReq`), and only then forward the (stripped) original
request. -/
theorem mw_sequential_order (env : Env) (net : ApiRequest → Option String)
    (load : String → Option ImgSize) (o : Options) (opts : Options)
    (hpass : passesFilters env o = true)
    (hfwd : (middleware env net load o).outcome = .forwarded opts) :
    ∃ (loads : List String) (fixedMjml : String),
      (middleware env net load o).trace =
        [.readMeta, .api (metaSaveReq env o), .api (convertReq o)] ++
          loads.map Event.imgLoad ++
          [.compile fixedMjml,
           .api (htmlSaveReq env o (env.mjmlCompile fixedMjml))] ∧
      opts = strippedOptions env o := by
  rw [middleware_pass env net load o hpass] at hfwd ⊢
  rcases mainFlow_shape env net load o with
      ⟨-, heq⟩ | ⟨a, -, -, heq⟩ | ⟨a, s, -, -, -, heq⟩ |
      ⟨a, s, elems, -, -, -, -, heq⟩ | ⟨a, s, elems, b, -, -, -, -, heq⟩
  · rw [heq] at hfwd; exact absurd hfwd (by simp)
  · rw [heq] at hfwd; exact absurd hfwd (by simp)
  · rw [heq] at hfwd; exact absurd hfwd (by simp)
  · rw [heq] at hfwd; exact absurd hfwd (by simp)
  · rw [heq] at hfwd ⊢
    simp only [Outcome.forwarded.injEq] at hfwd
    exact ⟨(fixImagesRun load (env.parseHTML s)).1, env.serialize elems, rfl, hfwd.symm⟩

/-- Witness for C5 on a concrete successful run. -/
theorem mw_sequential_order_witness :
    ∃ (loads : List String) (fixedMjml : String),
      (middleware cEnv cNet cLoad cOptions).trace =
        [.readMeta, .api (metaSaveReq cEnv cOptions), .api (convertReq cOptions)] ++
          loads.map Event.imgLoad ++
          [.compile fixedMjml,
           .api (htmlSaveReq cEnv cOptions (cEnv.mjmlCompile fixedMjml))] ∧
      strippedOptions cEnv cOptions = strippedOptions cEnv cOptions :=
  mw_sequential_order cEnv cNet cLoad cOptions (strippedOptions cEnv cOptions)
    (by decide) rfl

/-- Counterexample for C6: a concrete intercepted save that passes all
the filters and succeeds performs three `apiFetch` calls before
forwarding, not two. -/
theorem mw_two_calls_counterexample :
    (middleware cEnv cNet cLoad cOptions).apiCalls.length = 3 ∧
    (middleware cEnv cNet cLoad cOptions).apiCalls.length ≠ 2 ∧
    (middleware cEnv cNet cLoad cOptions).outcome =
      .forwarded (strippedOptions cEnv cOptions) := by
  refine ⟨rfl, by decide, rfl⟩

/-- C6 amended: a fully successful interception performs exactly three
sequential network calls besides forwarding the original request: the
whitelisted-meta save, the MJML conversion, and the email-HTML meta
save. -/
theorem mw_three_calls (env : Env) (net : ApiRequest → Option String)
    (load : String → Option ImgSize) (o : Options) (opts : Options)
    (hpass : passesFilters env o = true)
    (hfwd : (middleware env net load o).outcome = .forwarded opts) :
    (middleware env net load o).apiCalls.length = 3 ∧
    ∃ html, (middleware env net load o).apiCalls =
      [metaSaveReq env o, convertReq o, htmlSaveReq env o html] := by
  rw [middleware_pass env net load o hpass] at hfwd ⊢
  rcases mainFlow_shape env net load o with
      ⟨-, heq⟩ | ⟨a, -, -, heq⟩ | ⟨a, s, -, -, -, heq⟩ |
      ⟨a, s, elems, -, -, -, -, heq⟩ | ⟨a, s, elems, b, -, -, -, -, heq⟩
  · rw [heq] at hfwd; exact absurd hfwd (by simp)
  · rw [heq] at hfwd; exact absurd hfwd (by simp)
  · rw [heq] at hfwd; exact absurd hfwd (by simp)
  · rw [heq] at hfwd; exact absurd hfwd (by simp)
  · rw [heq]
    have hcalls : (MWResult.apiCalls
        ⟨[.readMeta, .api (metaSaveReq env o), .api (convertReq o)] ++
          (fixImagesRun load (env.parseHTML s)).1.map .imgLoad ++
          [.compile (env.serialize elems),
           .api (htmlSaveReq env o (env.mjmlCompile (env.serialize elems)))],
         .forwarded (strippedOptions env o)⟩) =
        [metaSaveReq env o, convertReq o,
         htmlSaveReq env o (env.mjmlCompile (env.serialize elems))] := by
      simp [MWResult.apiCalls, Event.asApi, filterMap_asApi_imgLoads]
    rw [hcalls]
    exact ⟨rfl, env.mjmlCompile (env.serialize elems), rfl⟩

/-- Witness for the amended C6 on a concrete successful run. -/
theorem mw_three_calls_witness :
    (middleware cEnv cNet cLoad cOptions).apiCalls.length = 3 ∧
    ∃ html, (middleware cEnv cNet cLoad cOptions).apiCalls =
      [metaSaveReq cEnv cOptions, convertReq cOptions,
       htmlSaveReq cEnv cOptions html] :=
  mw_three_calls cEnv cNet cLoad cOptions (strippedOptions cEnv cOptions)
    (by decide) rfl

/-- C7: whatever the oracles do, every `apiFetch` call the middleware
itself issues is a POST to either the CMS metadata-save endpoint
`/wp/v2/{postType}/{id}` (`savePath`) or the markup-conversion endpoint
`/newspack-newsletters/v1/post-mjml`. -/
theorem mw_endpoints (env : Env) (net : ApiRequest → Option String)
    (load : String → Option ImgSize) (o : Options) (r : ApiRequest)
    (hr : r ∈ (middleware env net load o).apiCalls) :
    r.method = "POST" ∧
    (r.path = savePath env o ∨ r.path = "/newspack-newsletters/v1/post-mjml") := by
  by_cases hpass : passesFilters env o = true
  · rw [middleware_pass env net load o hpass] at hr
    rcases mainFlow_shape env net load o with
        ⟨-, heq⟩ | ⟨a, -, -, heq⟩ | ⟨a, s, -, -, -, heq⟩ |
        ⟨a, s, elems, -, -, -, -, heq⟩ | ⟨a, s, elems, b, -, -, -, -, heq⟩ <;>
      rw [heq] at hr <;>
      simp [MWResult.apiCalls, Event.asApi, filterMap_asApi_imgLoads] at hr <;>
      rcases hr with rfl | rfl | rfl <;>
      simp [metaSaveReq, convertReq, htmlSaveReq]
  · rw [middleware_skip env net load o (by simpa using hpass)] at hr
    exact absurd hr (by simp [MWResult.apiCalls])

/-- Witness for C7: the conversion call of a concrete run. -/
theorem mw_endpoints_witness :
    (convertReq cOptions).method = "POST" ∧
    ((convertReq cOptions).path = savePath cEnv cOptions ∨
     (convertReq cOptions).path = "/newspack-newsletters/v1/post-mjml") :=
  mw_endpoints cEnv cNet cLoad cOptions (convertReq cOptions) (by decide)

/-- C3: once the filters pass, a rejection of any awaited step rejects
the whole middleware: the original request is never forwarded to `next`
(first conjunct: a forwarded run is one in which every step succeeded),
and on a failed run the `apiFetch` calls already issued are a prefix of
the normal three-call sequence — nothing is rolled back or compensated,
in particular meta persisted by an earlier call stays persisted and no
further call follows the failing one. -/
theorem mw_failure_aborts (env : Env) (net : ApiRequest → Option String)
    (load : String → Option ImgSize) (o : Options)
    (hpass : passesFilters env o = true) :
    (∀ opts, (middleware env net load o).outcome = .forwarded opts →
      (∃ a, net (metaSaveReq env o) = some a) ∧
      ∃ s elems, net (convertReq o) = some s ∧
        fixImagesWidth load (env.parseHTML s) = some elems ∧
        ∃ b, net (htmlSaveReq env o (env.mjmlCompile (env.serialize elems))) = some b) ∧
    ((middleware env net load o).outcome = .failed →
      (∀ opts, (middleware env net load o).outcome ≠ .forwarded opts) ∧
      ∃ html, (middleware env net load o).apiCalls <+:
        [metaSaveReq env o, convertReq o, htmlSaveReq env o html]) := by
  rw [middleware_pass env net load o hpass]
  rcases mainFlow_shape env net load o with
      ⟨h1, heq⟩ | ⟨a, h1, h2, heq⟩ | ⟨a, s, h1, h2, h3, heq⟩ |
      ⟨a, s, elems, h1, h2, h3, h4, heq⟩ | ⟨a, s, elems, b, h1, h2, h3, h4, heq⟩ <;>
    rw [heq]
  · refine ⟨fun opts hopts => absurd hopts (by simp), fun _ => ⟨by simp, "", ?_⟩⟩
    have : (MWResult.apiCalls ⟨[.readMeta, .api (metaSaveReq env o)], .failed⟩) =
        [metaSaveReq env o] := by
      simp [MWResult.apiCalls, Event.asApi]
    rw [this]
    exact ⟨[convertReq o, htmlSaveReq env o ""], rfl⟩
  · refine ⟨fun opts hopts => absurd hopts (by simp), fun _ => ⟨by simp, "", ?_⟩⟩
    have : (MWResult.apiCalls
        ⟨[.readMeta, .api (metaSaveReq env o), .api (convertReq o)], .failed⟩) =
        [metaSaveReq env o, convertReq o] := by
      simp [MWResult.apiCalls, Event.asApi]
    rw [this]
    exact ⟨[htmlSaveReq env o ""], rfl⟩
  · refine ⟨fun opts hopts => absurd hopts (by simp), fun _ => ⟨by simp, "", ?_⟩⟩
    have : (MWResult.apiCalls
        ⟨[.readMeta, .api (metaSaveReq env o), .api (convertReq o)] ++
          (fixImagesRun load (env.parseHTML s)).1.map .imgLoad, .failed⟩) =
        [metaSaveReq env o, convertReq o] := by
      simp [MWResult.apiCalls, Event.asApi, filterMap_asApi_imgLoads]
    rw [this]
    exact ⟨[htmlSaveReq env o ""], rfl⟩
  · refine ⟨fun opts hopts => absurd hopts (by simp),
      fun _ => ⟨by simp, env.mjmlCompile (env.serialize elems), ?_⟩⟩
    have : (MWResult.apiCalls
        ⟨[.readMeta, .api (metaSaveReq env o), .api (convertReq o)] ++
          (fixImagesRun load (env.parseHTML s)).1.map .imgLoad ++
          [.compile (env.serialize elems),
           .api (htmlSaveReq env o (env.mjmlCompile (env.serialize elems)))],
         .failed⟩) =
        [metaSaveReq env o, convertReq o,
         htmlSaveReq env o (env.mjmlCompile (env.serialize elems))] := by
      simp [MWResult.apiCalls, Event.asApi, filterMap_asApi_imgLoads]
    rw [this]
  · refine ⟨fun opts hopts => ⟨⟨a, h1⟩, s, elems, h2, ?_, b, h4⟩,
      fun hfail => absurd hfail (by simp)⟩
    simpa [fixImagesWidth] using h3

/-- Witness for C3: a run whose conversion call rejects makes only the
meta-save and conversion calls and never forwards. -/
theorem mw_failure_aborts_witness :
    (∀ opts, (middleware cEnv fNet cLoad cOptions).outcome = .forwarded opts →
      (∃ a, fNet (metaSaveReq cEnv cOptions) = some a) ∧
      ∃ s elems, fNet (convertReq cOptions) = some s ∧
        fixImagesWidth cLoad (cEnv.parseHTML s) = some elems ∧
        ∃ b, fNet (htmlSaveReq cEnv cOptions
          (cEnv.mjmlCompile (cEnv.serialize elems))) = some b) ∧
    ((middleware cEnv fNet cLoad cOptions).outcome = .failed →
      (∀ opts, (middleware cEnv fNet cLoad cOptions).outcome ≠ .forwarded opts) ∧
      ∃ html, (middleware cEnv fNet cLoad cOptions).apiCalls <+:
        [metaSaveReq cEnv cOptions, convertReq cOptions,
         htmlSaveReq cEnv cOptions html]) :=
  mw_failure_aborts cEnv fNet cLoad cOptions (by decide)

/-- Counterexample for C1: on a concrete successful interception the
non-whitelisted remainder of the payload meta is NOT stripped from the
forwarded payload — the remainder key `"foo"` survives with its value,
while it is the whitelisted key `"is_public"` that is removed. -/
theorem mw_partition_counterexample :
    (middleware cEnv cNet cLoad cOptions).outcome =
      .forwarded
        { method := some "PUT"
        , path := "/wp/v2/newspack_nl/7"
        , data := some
            { content := some "<p>x</p>", id := some 7, title := some "T"
            , meta := some [("foo", "bar")] } } ∧
    ("foo", "bar") ∈ ((cOptions.data.getD default).meta.getD []) ∧
    "foo" ∉ POST_META_WHITELIST ∧ "foo" ≠ cEnv.email_html_meta := by
  exact ⟨rfl, by decide, by decide, by decide⟩

/-- C1 amended: on a successful interception carrying a meta object,
the whitelisted subset of the editor store's edited meta is persisted
via its own network call (the first `apiFetch` call), while the
whitelisted keys and the email-HTML meta key — not the remainder — are
stripped from the forwarded payload's meta. -/
theorem mw_meta_partition (env : Env) (net : ApiRequest → Option String)
    (load : String → Option ImgSize) (o : Options) (opts : Options)
    (m : List (String × String))
    (hpass : passesFilters env o = true)
    (hfwd : (middleware env net load o).outcome = .forwarded opts)
    (hm : (o.data.getD default).meta = some m) :
    (middleware env net load o).apiCalls.head? = some (metaSaveReq env o) ∧
    (metaSaveReq env o).body =
      .metaBody (lodashPick env.editedPostMeta POST_META_WHITELIST) ∧
    ∃ d, opts.data = some d ∧
      d.meta = some (lodashOmit m (POST_META_WHITELIST ++ [env.email_html_meta])) := by
  refine ⟨mw_firstCall env net load o hpass, rfl, ?_⟩
  rw [middleware_pass env net load o hpass] at hfwd
  rcases mainFlow_shape env net load o with
      ⟨-, heq⟩ | ⟨a, -, -, heq⟩ | ⟨a, s, -, -, -, heq⟩ |
      ⟨a, s, elems, -, -, -, -, heq⟩ | ⟨a, s, elems, b, -, -, -, -, heq⟩ <;>
    rw [heq] at hfwd
  · exact absurd hfwd (by simp)
  · exact absurd hfwd (by simp)
  · exact absurd hfwd (by simp)
  · exact absurd hfwd (by simp)
  · simp only [Outcome.forwarded.injEq] at hfwd
    subst hfwd
    simp only [strippedOptions, hm]
    exact ⟨_, rfl, rfl⟩

/-- Witness for the amended C1 on a concrete successful run. -/
theorem mw_meta_partition_witness :
    (middleware cEnv cNet cLoad cOptions).apiCalls.head? =
      some (metaSaveReq cEnv cOptions) ∧
    (metaSaveReq cEnv cOptions).body =
      .metaBody (lodashPick cEnv.editedPostMeta POST_META_WHITELIST) ∧
    ∃ d, (strippedOptions cEnv cOptions).data = some d ∧
      d.meta = some (lodashOmit [("foo", "bar"), ("is_public", "0")]
        (POST_META_WHITELIST ++ [cEnv.email_html_meta])) :=
  mw_meta_partition cEnv cNet cLoad cOptions (strippedOptions cEnv cOptions)
    [("foo", "bar"), ("is_public", "0")] (by decide) rfl rfl

/-- C8: on a successful interception the forwarded payload's meta
contains no whitelisted key and not the email-HTML key, every other
meta entry is kept with its original value (and order), the other
request fields are untouched, and a request without a meta object is
forwarded entirely unmodified. -/
theorem mw_strip_frame (env : Env) (net : ApiRequest → Option String)
    (load : String → Option ImgSize) (o : Options) (opts : Options)
    (hpass : passesFilters env o = true)
    (hfwd : (middleware env net load o).outcome = .forwarded opts) :
    ((o.data.getD default).meta = none → opts = o) ∧
    ∀ m, (o.data.getD default).meta = some m →
      ∃ d, opts.data = some d ∧
        d.meta = some (lodashOmit m (POST_META_WHITELIST ++ [env.email_html_meta])) ∧
        (∀ kv ∈ lodashOmit m (POST_META_WHITELIST ++ [env.email_html_meta]),
          kv ∈ m ∧ kv.1 ∉ POST_META_WHITELIST ∧ kv.1 ≠ env.email_html_meta) ∧
        (∀ kv ∈ m, kv.1 ∉ POST_META_WHITELIST → kv.1 ≠ env.email_html_meta →
          kv ∈ lodashOmit m (POST_META_WHITELIST ++ [env.email_html_meta])) ∧
        d.content = (o.data.getD default).content ∧
        d.id = (o.data.getD default).id ∧
        d.title = (o.data.getD default).title ∧
        opts.method = o.method ∧ opts.path = o.path := by
  have hopts : opts = strippedOptions env o := by
    rw [middleware_pass env net load o hpass] at hfwd
    rcases mainFlow_shape env net load o with
        ⟨-, heq⟩ | ⟨a, -, -, heq⟩ | ⟨a, s, -, -, -, heq⟩ |
        ⟨a, s, elems, -, -, -, -, heq⟩ | ⟨a, s, elems, b, -, -, -, -, heq⟩ <;>
      rw [heq] at hfwd
    · exact absurd hfwd (by simp)
    · exact absurd hfwd (by simp)
    · exact absurd hfwd (by simp)
    · exact absurd hfwd (by simp)
    · simpa using hfwd.symm
  subst hopts
  constructor
  · intro hnone
    simp only [strippedOptions, hnone]
  · intro m hm
    simp only [strippedOptions, hm]
    refine ⟨_, rfl, rfl, ?_, ?_, rfl, rfl, rfl, trivial, trivial⟩
    · intro kv hkv
      rw [mem_lodashOmit] at hkv
      obtain ⟨hmem, hnk⟩ := hkv
      simp only [List.mem_append, List.mem_singleton, not_or] at hnk
      exact ⟨hmem, hnk.1, hnk.2⟩
    · intro kv hmem hnw hne
      rw [mem_lodashOmit]
      refine ⟨hmem, ?_⟩
      simp only [List.mem_append, List.mem_singleton, not_or]
      exact ⟨hnw, hne⟩

/-- Witness for C8 on a concrete successful run. -/
theorem mw_strip_frame_witness :
    ((cOptions.data.getD default).meta = none →
      strippedOptions cEnv cOptions = cOptions) ∧
    ∀ m, (cOptions.data.getD default).meta = some m →
      ∃ d, (strippedOptions cEnv cOptions).data = some d ∧
        d.meta = some (lodashOmit m (POST_META_WHITELIST ++ [cEnv.email_html_meta])) ∧
        (∀ kv ∈ lodashOmit m (POST_META_WHITELIST ++ [cEnv.email_html_meta]),
          kv ∈ m ∧ kv.1 ∉ POST_META_WHITELIST ∧ kv.1 ≠ cEnv.email_html_meta) ∧
        (∀ kv ∈ m, kv.1 ∉ POST_META_WHITELIST → kv.1 ≠ cEnv.email_html_meta →
          kv ∈ lodashOmit m (POST_META_WHITELIST ++ [cEnv.email_html_meta])) ∧
        d.content = (cOptions.data.getD default).content ∧
        d.id = (cOptions.data.getD default).id ∧
        d.title = (cOptions.data.getD default).title ∧
        (strippedOptions cEnv cOptions).method = cOptions.method ∧
        (strippedOptions cEnv cOptions).path = cOptions.path :=
  mw_strip_frame cEnv cNet cLoad cOptions (strippedOptions cEnv cOptions)
    (by decide) rfl

/-- C10: the whitelisted meta persisted by the first network call is
picked from the editor store's edited post attribute `meta`, not from
the intercepted payload's own meta object: the first call is the same
whatever meta object the payload carries. -/
theorem mw_store_meta_source (env : Env) (net : ApiRequest → Option String)
    (load : String → Option ImgSize) (o : Options)
    (hpass : passesFilters env o = true) :
    (middleware env net load o).apiCalls.head? = some (metaSaveReq env o) ∧
    (metaSaveReq env o).body =
      .metaBody (lodashPick env.editedPostMeta POST_META_WHITELIST) ∧
    ∀ m₁ m₂, (middleware env net load (setPayloadMeta o m₁)).apiCalls.head? =
      (middleware env net load (setPayloadMeta o m₂)).apiCalls.head? := by
  refine ⟨mw_firstCall env net load o hpass, rfl, ?_⟩
  intro m₁ m₂
  have p₁ : passesFilters env (setPayloadMeta o m₁) = true := by
    rw [passesFilters_setPayloadMeta]; exact hpass
  have p₂ : passesFilters env (setPayloadMeta o m₂) = true := by
    rw [passesFilters_setPayloadMeta]; exact hpass
  rw [mw_firstCall env net load _ p₁, mw_firstCall env net load _ p₂,
    metaSaveReq_setPayloadMeta, metaSaveReq_setPayloadMeta]

/-- Witness for C10 on a concrete run. -/
theorem mw_store_meta_source_witness :
    (middleware cEnv cNet cLoad cOptions).apiCalls.head? =
      some (metaSaveReq cEnv cOptions) ∧
    (metaSaveReq cEnv cOptions).body =
      .metaBody (lodashPick cEnv.editedPostMeta POST_META_WHITELIST) ∧
    ∀ m₁ m₂, (middleware cEnv cNet cLoad (setPayloadMeta cOptions m₁)).apiCalls.head? =
      (middleware cEnv cNet cLoad (setPayloadMeta cOptions m₂)).apiCalls.head? :=
  mw_store_meta_source cEnv cNet cLoad cOptions (by decide)

/-- C2: if `fixImagesWidth` resolves, every `mj-image` element that had
no `width` attribute at all carries, in the output, a `width` attribute
equal to the natural pixel width obtained by loading its `src`. -/
theorem fixImagesWidth_backfills (load : String → Option ImgSize)
    (elems out : List Element)
    (h : fixImagesWidth load elems = some out)
    (i : Nat) (hi : i < elems.length)
    (htag : (elems.get ⟨i, hi⟩).tag = "mj-image")
    (hw : getAttr (elems.get ⟨i, hi⟩) "width" = none) :
    ∃ sz e', load ((getAttr (elems.get ⟨i, hi⟩) "src").getD "null") = some sz ∧
      out[i]? = some e' ∧ getAttr e' "width" = some (toString sz.width) := by
  have hrun : fixImagesRun load elems = ((fixImagesRun load elems).1, some out) := by
    unfold fixImagesWidth at h
    rw [← h]
  obtain ⟨hlen, hidx⟩ := fixImagesRun_sound load elems (fixImagesRun load elems).1 out hrun
  have ho : i < out.length := by rw [hlen]; exact hi
  have hcond : (elems.get ⟨i, hi⟩).tag = "mj-image" ∧
      jsFalsyStr (getAttr (elems.get ⟨i, hi⟩) "width") = true := by
    refine ⟨htag, ?_⟩
    rw [hw]
    rfl
  have hspec := hidx i hi ho
  rw [if_pos hcond] at hspec
  obtain ⟨sz, hsz, hout⟩ := hspec
  refine ⟨sz, out.get ⟨i, ho⟩, hsz, ?_, ?_⟩
  · rw [List.getElem?_eq_getElem ho]
    rfl
  · rw [hout]
    unfold setAttr getAttr
    simp only
    exact lookup_setKey _ _ _

/-- The output of `fixImagesWidth` on `[wElem]` under `wLoad`. -/
def wOut : List Element := [⟨"mj-image", [("src", "b.png"), ("width", "250")]⟩]

/-- Witness for C2: a width-less `mj-image` gets the loaded width. -/
theorem fixImagesWidth_backfills_witness :
    ∃ sz e', wLoad ((getAttr wElem "src").getD "null") = some sz ∧
      wOut[0]? = some e' ∧ getAttr e' "width" = some (toString sz.width) :=
  fixImagesWidth_backfills wLoad [wElem] wOut rfl 0 (by decide) rfl rfl

/-- The output of `fixImagesWidth` on `[exElem]` under `wLoad`. -/
def exOut : List Element := [⟨"mj-image", [("width", "300"), ("src", "a.png")]⟩]

/-- Counterexample for C9: an `mj-image` whose `width` attribute is
present but empty does NOT keep its original value — the empty string
is falsy, so the attribute is overwritten with the loaded width. -/
theorem fixImagesWidth_keeps_width_counterexample :
    fixImagesWidth wLoad [exElem] = some exOut ∧
    getAttr exElem "width" = some "" ∧
    exOut[0]? = some ⟨"mj-image", [("width", "300"), ("src", "a.png")]⟩ ∧
    getAttr (⟨"mj-image", [("width", "300"), ("src", "a.png")]⟩ : Element) "width" =
      some "300" ∧
    ("300" : String) ≠ "" := by
  exact ⟨rfl, rfl, rfl, rfl, by decide⟩

/-- C9 amended: if `fixImagesWidth` resolves, every `mj-image` of the
output has a `width` attribute, and every element whose `width`
attribute was present and non-empty is returned unchanged; an empty
`width` attribute is treated as missing and overwritten with the loaded
natural width. -/
theorem fixImagesWidth_width_invariant (load : String → Option ImgSize)
    (elems out : List Element)
    (h : fixImagesWidth load elems = some out) :
    out.length = elems.length ∧
    ∀ (i : Nat) (hi : i < elems.length) (ho : i < out.length),
      ((elems.get ⟨i, hi⟩).tag = "mj-image" →
        (getAttr (out.get ⟨i, ho⟩) "width").isSome = true) ∧
      ∀ w, getAttr (elems.get ⟨i, hi⟩) "width" = some w → w ≠ "" →
        out.get ⟨i, ho⟩ = elems.get ⟨i, hi⟩ := by
  have hrun : fixImagesRun load elems = ((fixImagesRun load elems).1, some out) := by
    unfold fixImagesWidth at h
    rw [← h]
  obtain ⟨hlen, hidx⟩ := fixImagesRun_sound load elems (fixImagesRun load elems).1 out hrun
  refine ⟨hlen, ?_⟩
  intro i hi ho
  have hspec := hidx i hi ho
  by_cases hcond : (elems.get ⟨i, hi⟩).tag = "mj-image" ∧
      jsFalsyStr (getAttr (elems.get ⟨i, hi⟩) "width") = true
  · rw [if_pos hcond] at hspec
    obtain ⟨sz, hsz, hout⟩ := hspec
    constructor
    · intro _
      rw [hout]
      unfold setAttr getAttr
      simp only
      rw [lookup_setKey]
      rfl
    · intro w hw hne
      exfalso
      rw [hw] at hcond
      have : w = "" := by simpa [jsFalsyStr] using hcond.2
      exact hne this
  · rw [if_neg hcond] at hspec
    constructor
    · intro htag
      rw [hspec]
      have hfalse : jsFalsyStr (getAttr (elems.get ⟨i, hi⟩) "width") = false := by
        rcases Bool.eq_false_or_eq_true
            (jsFalsyStr (getAttr (elems.get ⟨i, hi⟩) "width")) with ht | hf
        · exact absurd ⟨htag, ht⟩ hcond
        · exact hf
      cases hga : getAttr (elems.get ⟨i, hi⟩) "width" with
      | none => rw [hga] at hfalse; simp [jsFalsyStr] at hfalse
      | some s => rfl
    · intro w hw hne
      exact hspec

/-- Witness for the amended C9: the empty-width image ends up with a
`width` attribute present. -/
theorem fixImagesWidth_width_invariant_witness :
    exOut.length = ([exElem] : List Element).length ∧
    ∀ (i : Nat) (hi : i < ([exElem] : List Element).length)
      (ho : i < exOut.length),
      ((([exElem] : List Element).get ⟨i, hi⟩).tag = "mj-image" →
        (getAttr (exOut.get ⟨i, ho⟩) "width").isSome = true) ∧
      ∀ w, getAttr (([exElem] : List Element).get ⟨i, hi⟩) "width" = some w →
        w ≠ "" → exOut.get ⟨i, ho⟩ = ([exElem] : List Element).get ⟨i, hi⟩ :=
  fixImagesWidth_width_invariant wLoad [exElem] exOut rfl
